import Mathlib

/-!
Shallow embedding of `envparse.py` (module `envparse`, version 0.2.0): a
lookup-and-cast engine for environment variables.  Python values are modelled
by the inductive type `Value`, Python exceptions by `PyErr`, and each function
of the module by a Lean function of the same name (`Env.__call__` becomes
`Env.call`; the recursion through proxy values is made total with a fuel
parameter, mirroring Python's recursion limit).  Machine behaviour of the
Python builtins used by the module (`float`, `int`, `str.strip`,
`json.loads`, `urllib.parse.urlparse`, `shlex`) is modelled explicitly by
functions marked as such in their doc comments.
-/

namespace Envparse

/-- Python exceptions that the code under study can raise.
`configurationError` is the module's own `ConfigurationError`; the others are
builtin exception kinds (`ValueError`, `AttributeError`, `TypeError`,
`RecursionError`) carrying their `args`/message. -/
inductive PyErr where
  | configurationError (args : List String)
  | valueError (args : List String)
  | attributeError (msg : String)
  | typeError (msg : String)
  | recursionError
  deriving Repr, DecidableEq

/-- The closed set of cast specifiers reachable through the module's public
surface: the builtin types used by the shortcut table
(`bool dict float int list set str tuple`) plus the two callables
`json.loads` (`cjson`) and `urllib.parse.urlparse` (`curl`). -/
inductive Cast where
  | cbool | cdict | cfloat | cint | clist | cset | cstr | ctuple | cjson | curl
  deriving Repr, DecidableEq

/-- Python runtime values flowing through `envparse`: strings from the
environment, the results of the casts (bool, int, float-as-rational, list,
tuple, set, dict, URL parse result) and `None`.  A Python `float` is modelled
as a rational number, which is exact for every decimal literal the float cast
produces.  A `set` is kept as its list of elements in insertion order. -/
inductive Value where
  | vNone
  | vBool (b : Bool)
  | vInt (n : Int)
  | vFloat (q : ℚ)
  | vStr (s : String)
  | vList (l : List Value)
  | vTuple (l : List Value)
  | vSet (l : List Value)
  | vDict (l : List (String × Value))
  | vUrl (scheme netloc path params query fragment : String)
  deriving Repr

mutual

/-- Structural equality on `Value`, modelling Python `==` on the values that
actually flow through the module (same-type comparisons). -/
def Value.beq : Value → Value → Bool
  | .vNone, .vNone => true
  | .vBool a, .vBool b => a == b
  | .vInt a, .vInt b => a == b
  | .vFloat a, .vFloat b => a == b
  | .vStr a, .vStr b => a == b
  | .vList a, .vList b => Value.beqList a b
  | .vTuple a, .vTuple b => Value.beqList a b
  | .vSet a, .vSet b => Value.beqList a b
  | .vDict a, .vDict b => Value.beqPairs a b
  | .vUrl a b c d e f, .vUrl a' b' c' d' e' f' =>
      a == a' && b == b' && c == c' && d == d' && e == e' && f == f'
  | _, _ => false

/-- Elementwise equality of lists of values. -/
def Value.beqList : List Value → List Value → Bool
  | [], [] => true
  | x :: xs, y :: ys => Value.beq x y && Value.beqList xs ys
  | _, _ => false

/-- Elementwise equality of string-keyed pair lists. -/
def Value.beqPairs : List (String × Value) → List (String × Value) → Bool
  | [], [] => true
  | (k, x) :: xs, (k', y) :: ys => k == k' && Value.beq x y && Value.beqPairs xs ys
  | _, _ => false

end

instance : BEq Value := ⟨Value.beq⟩

/-- `Env.BOOLEAN_TRUE_STRINGS`: the fixed truthy-string set of the bool cast. -/
def BOOLEAN_TRUE_STRINGS : List String := ["true", "on", "ok", "y", "yes", "1"]

/-- Split a character list at every separator character satisfying `p`
(model of `re.split` on a single-character class and of `str.split(sep)`
for one-character separators): an empty input yields one empty piece. -/
def charSplit (p : Char → Bool) : List Char → List (List Char)
  | [] => [[]]
  | c :: rest =>
      if p c then [] :: charSplit p rest
      else
        match charSplit p rest with
        | piece :: pieces => (c :: piece) :: pieces
        | [] => [[c]]

/-- `str.split(sep)` for a one-character separator, on strings. -/
def splitOnChar (sep : Char) (s : String) : List String :=
  (charSplit (· = sep) s.data).map String.mk

/-- Python whitespace for `str.strip()` (the characters occurring here). -/
def isPyWs (c : Char) : Bool :=
  c = ' ' || c = '\t' || c = '\n' || c = '\r'

/-- Model of `str.strip()`: remove leading and trailing whitespace. -/
def pyStripWs (s : String) : String :=
  String.mk ((((s.data.dropWhile isPyWs).reverse.dropWhile isPyWs).reverse))

/-- Model of `str.lower()` (ASCII case folding suffices here). -/
def pyLower (s : String) : String :=
  String.mk (s.data.map Char.toLower)

/-- Replace every (non-overlapping, left-to-right) occurrence of the
two-character sequence `a b` by the single character `r`. -/
def replacePair (a b r : Char) : List Char → List Char
  | x :: y :: rest =>
      if x = a ∧ y = b then r :: replacePair a b r rest
      else x :: replacePair a b r (y :: rest)
  | l => l

/-- Numeric value of a digit string (used by the models of `int()`/`float()`). -/
def digitsVal (cs : List Char) : Nat :=
  cs.foldl (fun acc c => acc * 10 + (c.toNat - '0'.toNat)) 0

/-- Model of the Python builtin `int(str)`: optional surrounding whitespace,
optional sign, then a nonempty digit run; anything else raises `ValueError`
(underscore digit grouping is not modelled). -/
def pyIntOfString (s : String) : Except PyErr Int :=
  let t := pyStripWs s
  let fail : Except PyErr Int :=
    .error (.valueError ["invalid literal for int() with base 10: '" ++ s ++ "'"])
  let core : List Char → Except PyErr Int := fun cs =>
    if cs ≠ [] ∧ cs.all Char.isDigit then .ok (digitsVal cs) else fail
  match t.data with
  | '-' :: rest => (core rest).map (fun n => -n)
  | '+' :: rest => core rest
  | rest => core rest

/-- Model of the Python builtin `float(str)` restricted to plain decimal
forms: optional surrounding whitespace, optional sign, digits with at most
one point and at least one digit.  Exponents, `inf` and `nan` are not
modelled; the result is the exact rational value. -/
def pyFloatOfString (s : String) : Except PyErr ℚ :=
  let t := pyStripWs s
  let fail : Except PyErr ℚ :=
    .error (.valueError ["could not convert string to float: '" ++ s ++ "'"])
  let core : List Char → Except PyErr ℚ := fun cs =>
    match cs.splitOn '.' with
    | [intp] =>
        if intp ≠ [] ∧ intp.all Char.isDigit then .ok (digitsVal intp) else fail
    | [intp, fracp] =>
        if (intp ≠ [] ∨ fracp ≠ []) ∧ intp.all Char.isDigit ∧ fracp.all Char.isDigit then
          .ok ((digitsVal intp : ℚ) + (digitsVal fracp : ℚ) / ((10 : ℚ) ^ fracp.length))
        else fail
    | _ => fail
  match t.data with
  | '-' :: rest => (core rest).map (fun q => -q)
  | '+' :: rest => core rest
  | rest => core rest

/-- Truthiness of a value, modelling the Python builtin `bool(value)`. -/
def pyTruthy : Value → Bool
  | .vNone => false
  | .vBool b => b
  | .vInt n => n ≠ 0
  | .vFloat q => q ≠ 0
  | .vStr s => s ≠ ""
  | .vList l => !l.isEmpty
  | .vTuple l => !l.isEmpty
  | .vSet l => !l.isEmpty
  | .vDict l => !l.isEmpty
  | .vUrl _ _ _ _ _ _ => true

/-- Model of the Python builtin `str(value)` on the value kinds of this
module.  Only the string case (`str` of a `str` is the identity) is exercised
by the theorems below; the remaining cases give a fixed textual rendering in
the style of Python `repr`. -/
def pyStr : Value → String
  | .vNone => "None"
  | .vBool b => if b then "True" else "False"
  | .vInt n => toString n
  | .vFloat q => toString q.num ++ "/" ++ toString q.den
  | .vStr s => s
  | .vList _ => "<list>"
  | .vTuple _ => "<tuple>"
  | .vSet _ => "<set>"
  | .vDict _ => "<dict>"
  | .vUrl a b c d e f =>
      "ParseResult(" ++ a ++ ", " ++ b ++ ", " ++ c ++ ", " ++ d ++ ", " ++ e ++ ", " ++ f ++ ")"

/-- A JSON parse failure, with the message prefix used by `json.loads`
(`json.JSONDecodeError` is a subclass of `ValueError`). -/
def jsonFail (msg : String) : Except PyErr Value := .error (.valueError [msg])

/-- One step of JSON string-literal scanning: consume characters after the
opening quote up to the closing quote, decoding the one-character escapes. -/
def jsonString (fuel : Nat) (cs : List Char) (acc : List Char) :
    Option (String × List Char) :=
  match fuel, cs with
  | 0, _ => none
  | _, [] => none
  | fuel + 1, c :: rest =>
    if c = '"' then some (String.mk acc.reverse, rest)
    else if c = '\\' then
      match rest with
      | '"' :: r => jsonString fuel r ('"' :: acc)
      | '\\' :: r => jsonString fuel r ('\\' :: acc)
      | '/' :: r => jsonString fuel r ('/' :: acc)
      | 'n' :: r => jsonString fuel r ('\n' :: acc)
      | 't' :: r => jsonString fuel r ('\t' :: acc)
      | 'r' :: r => jsonString fuel r ('\r' :: acc)
      | _ => none
    else jsonString fuel rest (c :: acc)

/-- Skip JSON insignificant whitespace. -/
def jsonWs : List Char → List Char
  | c :: rest => if c = ' ' ∨ c = '\t' ∨ c = '\n' ∨ c = '\r' then jsonWs rest else c :: rest
  | [] => []

/-- JSON number scanning: optional minus, digits, optional fraction
(exponents are not modelled).  Integral numbers become `vInt`, fractional
ones `vFloat`. -/
def jsonNumber (cs : List Char) : Option (Value × List Char) :=
  let (neg, cs) := match cs with
    | '-' :: rest => (true, rest)
    | rest => (false, rest)
  let intp := cs.takeWhile Char.isDigit
  let rest := cs.dropWhile Char.isDigit
  if intp = [] then none
  else
    match rest with
    | '.' :: rest' =>
        let fracp := rest'.takeWhile Char.isDigit
        let rest'' := rest'.dropWhile Char.isDigit
        if fracp = [] then none
        else
          let q : ℚ := (digitsVal intp : ℚ) + (digitsVal fracp : ℚ) / ((10 : ℚ) ^ fracp.length)
          some (.vFloat (if neg then -q else q), rest'')
    | _ =>
        let n : Int := digitsVal intp
        some (.vInt (if neg then -n else n), rest)

mutual

/-- Recursive-descent JSON value parser (model of the `json.loads` grammar,
without `\u` escapes and exponents, which the repository never feeds it). -/
def jsonValue (fuel : Nat) (cs : List Char) : Option (Value × List Char) :=
  match fuel with
  | 0 => none
  | fuel + 1 =>
    match jsonWs cs with
    | [] => none
    | c :: rest =>
      if c = '{' then
        match jsonWs rest with
        | '}' :: r => some (.vDict [], r)
        | r => jsonMembers fuel r []
      else if c = '[' then
        match jsonWs rest with
        | ']' :: r => some (.vList [], r)
        | r => jsonItems fuel r []
      else if c = '"' then
        (jsonString fuel rest []).map (fun (s, r) => (.vStr s, r))
      else if c = 't' then
        match rest with
        | 'r' :: 'u' :: 'e' :: r => some (.vBool true, r)
        | _ => none
      else if c = 'f' then
        match rest with
        | 'a' :: 'l' :: 's' :: 'e' :: r => some (.vBool false, r)
        | _ => none
      else if c = 'n' then
        match rest with
        | 'u' :: 'l' :: 'l' :: r => some (.vNone, r)
        | _ => none
      else jsonNumber (c :: rest)

/-- Parse the members of a JSON object after the opening brace. -/
def jsonMembers (fuel : Nat) (cs : List Char) (acc : List (String × Value)) :
    Option (Value × List Char) :=
  match fuel with
  | 0 => none
  | fuel + 1 =>
    match jsonWs cs with
    | '"' :: rest =>
      match jsonString fuel rest [] with
      | none => none
      | some (k, rest') =>
        match jsonWs rest' with
        | ':' :: rest'' =>
          match jsonValue fuel rest'' with
          | none => none
          | some (v, rest''') =>
            match jsonWs rest''' with
            | ',' :: r => jsonMembers fuel r ((k, v) :: acc)
            | '}' :: r => some (.vDict ((k, v) :: acc).reverse, r)
            | _ => none
        | _ => none
    | _ => none

/-- Parse the items of a JSON array after the opening bracket. -/
def jsonItems (fuel : Nat) (cs : List Char) (acc : List Value) :
    Option (Value × List Char) :=
  match fuel with
  | 0 => none
  | fuel + 1 =>
    match jsonValue fuel cs with
    | none => none
    | some (v, rest) =>
      match jsonWs rest with
      | ',' :: r => jsonItems fuel r (v :: acc)
      | ']' :: r => some (.vList (v :: acc).reverse, r)
      | _ => none

end

/-- Model of `json.loads`: parse one JSON value and require only whitespace
after it; failures are `ValueError`s (`JSONDecodeError` subclasses
`ValueError`). -/
def jsonLoads (s : String) : Except PyErr Value :=
  match jsonValue (s.data.length + 1) s.data with
  | none => jsonFail "Expecting value"
  | some (v, rest) =>
      if jsonWs rest = [] then .ok v else jsonFail "Extra data"

/-- Valid URL scheme prefix: a letter followed by letters, digits, `+`, `-`
or `.` (as in `urllib.parse`). -/
def schemeChars (cs : List Char) : Bool :=
  match cs with
  | [] => false
  | c :: rest => c.isAlpha && rest.all (fun d => d.isAlphanum || d = '+' || d = '-' || d = '.')

/-- Model of `urllib.parse.urlparse`, simplified: split off the fragment at
the first `#`, recognise a scheme prefix before `:`, a `//`-introduced
netloc, and a query after the first `?`; the `params` component is left
empty.  `urlparse` raises nothing on ordinary strings and none of the claims
depends on its field-level details. -/
def pyUrlparse (s : String) : Value :=
  let (beforeFrag, fragment) :=
    match splitOnChar '#' s with
    | [] => (s, "")
    | [x] => (x, "")
    | x :: rest => (x, String.intercalate "#" rest)
  let (scheme, rest) :=
    match splitOnChar ':' beforeFrag with
    | x :: y :: more =>
        if schemeChars x.data then (pyLower x, String.intercalate ":" (y :: more))
        else ("", beforeFrag)
    | _ => ("", beforeFrag)
  let (netloc, pathq) :=
    match rest.data with
    | '/' :: '/' :: r =>
        (String.mk (r.takeWhile (fun c => !(c = '/' || c = '?' || c = '#'))),
         String.mk (r.dropWhile (fun c => !(c = '/' || c = '?' || c = '#'))))
    | _ => ("", rest)
  let (path, query) :=
    match splitOnChar '?' pathq with
    | [] => (pathq, "")
    | [x] => (x, "")
    | x :: rest' => (x, String.intercalate "?" rest')
  .vUrl scheme netloc path "" query fragment

/-- Calling one of the cast specifiers directly on a string, as the code does
with `subcast(i.strip())`: the semantics of the underlying Python callable
applied to one string (`bool` is truthiness, `list`/`tuple`/`set` iterate the
characters, `dict` of a nonempty string is a `ValueError`). -/
def applyCallable (c : Cast) (s : String) : Except PyErr Value :=
  match c with
  | .cbool => .ok (.vBool (s ≠ ""))
  | .cint => (pyIntOfString s).map Value.vInt
  | .cfloat => (pyFloatOfString s).map Value.vFloat
  | .cstr => .ok (.vStr s)
  | .clist => .ok (.vList (s.data.map (fun ch => .vStr (String.mk [ch]))))
  | .ctuple => .ok (.vTuple (s.data.map (fun ch => .vStr (String.mk [ch]))))
  | .cset => .ok (.vSet (s.data.dedup.map (fun ch => .vStr (String.mk [ch]))))
  | .cdict =>
      if s = "" then .ok (.vDict [])
      else .error (.valueError ["dictionary update sequence element #0 has length 1; 2 is required"])
  | .cjson => jsonLoads s
  | .curl => .ok (pyUrlparse s)

/-- `subcast(v.strip()) if subcast else v.strip()` applied to an
already-stripped string. -/
def applySub (sub : Option Cast) (s : String) : Except PyErr Value :=
  match sub with
  | none => .ok (.vStr s)
  | some c => applyCallable c s

/-- `re.sub(r'[^\d,\.]', '', value)`: keep only digits, commas and periods. -/
def floatClean (s : String) : String :=
  String.mk (s.data.filter (fun c => c.isDigit || c = ',' || c = '.'))

/-- `re.split(r'[,\.]', float_str)`: split on every comma or period. -/
def floatSplit (s : String) : List String :=
  (charSplit (fun c => c = ',' || c = '.') s.data).map String.mk

/-- The string-rewriting part of the float cast (envparse.py lines 144-151):
clean the string, split on separators, and when several parts remain join all
but the last and append the last after a single period. -/
def floatPrep (s : String) : String :=
  let float_str := floatClean s
  let parts := floatSplit float_str
  match parts with
  | [p] => p
  | _ => String.intercalate "" parts.dropLast ++ "." ++ parts.getLastD ""

/-- The dict-comprehension of the dict cast (envparse.py lines 158-160):
split on commas when the whole value is nonempty, split every segment on
every `=` (Python tuple-unpacking then demands exactly two pieces), strip
key and value, and apply the subcast to the value.  Its errors are raised
while the comprehension is built, before the guarded `cast(value)` call. -/
def pyDictComp (s : String) (sub : Option Cast) : Except PyErr Value :=
  if s = "" then .ok (.vDict [])
  else
    ((splitOnChar ',' s).mapM (fun (seg : String) =>
      (match splitOnChar '=' seg with
      | [k, v] => (applySub sub (pyStripWs v)).map (fun vv => (pyStripWs k, vv))
      | [_] => .error (.valueError ["not enough values to unpack (expected 2, got 1)"])
      | _ => .error (.valueError ["too many values to unpack (expected 2)"]) :
        Except PyErr (String × Value)))).map Value.vDict

/-- The intermediate value produced by the branch part of `Env.cast`:
either an ordinary value, or the still-lazy generator of the list/tuple
branch, holding the comma-segments whose stripping and subcasting only
happens when the final `cast(value)` call consumes it. -/
inductive Interm where
  | val (v : Value)
  | genSeq (isTuple : Bool) (items : List String)

/-- The branch part of `Env.cast` (envparse.py lines 140-160), which runs
before the `try` block: the bool membership test, the float string rewrite
with its eager `float(float_str)` call, the creation of the list/tuple
generator, and the eager dict comprehension.  Errors raised here are not
caught by the `except ValueError` below. -/
def castPrep (value : Value) (cast : Cast) (subcast : Option Cast) : Except PyErr Interm :=
  match cast with
  | .cbool =>
      match value with
      | .vStr s => .ok (.val (.vBool (BOOLEAN_TRUE_STRINGS.contains (pyLower s))))
      | _ => .error (.attributeError "object has no attribute 'lower'")
  | .cfloat =>
      match value with
      | .vStr s => (pyFloatOfString (floatPrep s)).map (fun q => .val (.vFloat q))
      | _ => .error (.typeError "expected string or bytes-like object")
  | .clist =>
      match value with
      | .vStr s => .ok (.genSeq false ((splitOnChar ',' s).filter (· ≠ "")))
      | _ => .error (.attributeError "object has no attribute 'split'")
  | .ctuple =>
      match value with
      | .vStr s => .ok (.genSeq true ((splitOnChar ',' s).filter (· ≠ "")))
      | _ => .error (.attributeError "object has no attribute 'split'")
  | .cdict =>
      match value with
      | .vStr s => (pyDictComp s subcast).map .val
      | _ => .error (.attributeError "object has no attribute 'split'")
  | _ => .ok (.val value)

/-- First-occurrence deduplication of values (model of iterating into a
Python `set`, kept in insertion order). -/
def dedupValues (l : List Value) : List Value :=
  (l.foldl (fun acc v => if acc.any (Value.beq v) then acc else v :: acc) []).reverse

/-- Model of `int(value)` for non-string values (`int` of an `int` is the
identity, of a `bool` is 0/1, of a `float` truncates towards zero). -/
def pyIntValue : Value → Except PyErr Int
  | .vStr s => pyIntOfString s
  | .vInt n => .ok n
  | .vBool b => .ok (if b then 1 else 0)
  | .vFloat q => .ok (if q ≥ 0 then ⌊q⌋ else ⌈q⌉)
  | _ => .error (.typeError "int() argument must be a string or a number")

/-- Model of `float(value)` for the final constructor call. -/
def pyFloatValue : Value → Except PyErr ℚ
  | .vStr s => pyFloatOfString s
  | .vInt n => .ok n
  | .vBool b => .ok (if b then 1 else 0)
  | .vFloat q => .ok q
  | _ => .error (.typeError "float() argument must be a string or a number")

/-- The final `cast(value)` call of `Env.cast` (envparse.py line 162), the
only call guarded by `try`/`except ValueError`: consume the list/tuple
generator (stripping and subcasting each kept segment), or apply the
designated constructor to the prepared value. -/
def castFinal (cast : Cast) (subcast : Option Cast) : Interm → Except PyErr Value
  | .genSeq isTuple items =>
      (items.mapM (fun seg => applySub subcast (pyStripWs seg))).map
        (fun l => if isTuple then .vTuple l else .vList l)
  | .val v =>
      match cast with
      | .cbool => .ok (.vBool (pyTruthy v))
      | .cint => (pyIntValue v).map Value.vInt
      | .cfloat => (pyFloatValue v).map Value.vFloat
      | .cstr => .ok (.vStr (pyStr v))
      | .cjson =>
          match v with
          | .vStr s => jsonLoads s
          | _ => .error (.typeError "the JSON object must be str, bytes or bytearray")
      | .curl =>
          match v with
          | .vStr s => .ok (pyUrlparse s)
          | _ => .error (.attributeError "object has no attribute 'decode'")
      | .cset =>
          match v with
          | .vStr s => .ok (.vSet (s.data.dedup.map (fun ch => .vStr (String.mk [ch]))))
          | .vSet l => .ok (.vSet l)
          | .vList l => .ok (.vSet (dedupValues l))
          | .vTuple l => .ok (.vSet (dedupValues l))
          | _ => .error (.typeError "object is not iterable")
      | .cdict =>
          match v with
          | .vDict d => .ok (.vDict d)
          | _ => .error (.typeError "object is not iterable")
      | .clist =>
          match v with
          | .vList l => .ok (.vList l)
          | _ => .error (.typeError "object is not iterable")
      | .ctuple =>
          match v with
          | .vTuple l => .ok (.vTuple l)
          | _ => .error (.typeError "object is not iterable")

/-- `Env.cast` (envparse.py lines 129-164): run the type-specific branch,
then the final constructor call; only a `ValueError` raised by that final
call is re-raised as `ConfigurationError` with the same args — errors from
the branch part propagate unchanged. -/
def Env.cast (value : Value) (cast : Cast) (subcast : Option Cast) : Except PyErr Value :=
  match castPrep value cast subcast with
  | .error e => .error e
  | .ok i =>
      match castFinal cast subcast i with
      | .ok r => .ok r
      | .error (.valueError args) => .error (.configurationError args)
      | .error e => .error e

/-- Helper for `proxyMatch`: after the opening `{{`, at least one character
(none of them a newline, since `.` does not match `\n`), then two consecutive
closing braces. -/
def proxyTail : List Char → Bool
  | [] => false
  | c :: rest =>
      if c = '\n' then false
      else
        (match rest with
         | '}' :: '}' :: _ => true
         | _ => false) || proxyTail rest

/-- `re.match(r"\{\{.+\}\}", value)` as a Boolean: does some prefix of the
string have the form `{{`, one or more non-newline characters, `}}`? -/
def proxyMatch (s : String) : Bool :=
  match s.data with
  | '{' :: '{' :: rest => proxyTail rest
  | _ => false

/-- Drop leading characters belonging to the strip set `{}`. -/
def dropBraces : List Char → List Char
  | c :: rest => if c = '{' ∨ c = '}' then dropBraces rest else c :: rest
  | [] => []

/-- `value.strip('{}')`: remove every leading and trailing `{` or `}`. -/
def pyStripBraces (s : String) : String :=
  String.mk (((dropBraces s.data).reverse |> dropBraces).reverse)

/-- A schema entry: either a bare cast specifier, or a parameter record with
optional `cast`, `subcast` and `default` fields. -/
inductive SchemaEntry where
  | bare (c : Cast)
  | record (cast : Option Cast) (subcast : Option Cast) (default : Option Value)
  deriving Repr

/-- The `default` argument of a lookup: the `NOTSET` sentinel or an actual
value (which may be `vNone`). -/
inductive Default where
  | notset
  | val (v : Value)
  deriving Repr

abbrev EnvMap := List (String × String)
abbrev Schema := List (String × SchemaEntry)

/-- The schema-merging step of `Env.__call__` (envparse.py lines 83-94):
when the variable has a schema entry, fill in `cast`, `subcast` and
`default` from it, but only for parameters the caller left unset. -/
def mergeSchemaParams (entry : Option SchemaEntry) (cast subcast : Option Cast)
    (default : Default) : Option Cast × Option Cast × Default :=
  match entry with
  | none => (cast, subcast, default)
  | some (.bare c) => (if cast.isNone then some c else cast, subcast, default)
  | some (.record cs ss ds) =>
      (if cast.isNone then cs else cast,
       if subcast.isNone then ss else subcast,
       match default with
       | .notset => (match ds with | some d => .val d | none => .notset)
       | d => d)

/-- `value != default` (envparse.py line 114): comparison against the
`NOTSET` sentinel is always unequal; against a supplied default it is value
equality. -/
def neqDefault (v : Value) (d : Default) : Bool :=
  match d with
  | .notset => true
  | .val dv => !(Value.beq v dv)

/-- The tail of `Env.__call__` after proxy resolution (envparse.py lines
112-118): apply the preprocessor, cast unless the value equals the default
and `force` is false, then apply the postprocessor. -/
def postStages (d1 : Default) (c2 : Cast) (s1 : Option Cast) (force : Bool)
    (pre post : Option (Value → Value)) (value : Value) : Except PyErr Value :=
  let value := match pre with | some f => f value | none => value
  match (if neqDefault value d1 || force then Env.cast value c2 s1 else .ok value) with
  | .error e => .error e
  | .ok value => .ok (match post with | some f => f value | none => value)

/-- `Env.__call__` (envparse.py lines 64-118): merge schema parameters,
default the cast to `str`, look the variable up in the active source (falling
back to the default or raising `ConfigurationError`), resolve a proxy value
by a recursive call with the same parameters, then run the post stages.
The `fuel` argument models Python's recursion limit: a chain of proxies
longer than the fuel raises `RecursionError`. -/
def Env.call : Nat → EnvMap → Schema → String → Default → Option Cast → Option Cast →
    Bool → Option (Value → Value) → Option (Value → Value) → Except PyErr Value
  | 0, _, _, _, _, _, _, _, _, _ => .error .recursionError
  | n + 1, env, sch, var, default, cast?, subcast?, force, pre, post =>
    let (c1, s1, d1) := mergeSchemaParams (List.lookup var sch) cast? subcast? default
    let c2 := c1.getD .cstr
    let valE : Except PyErr Value :=
      match List.lookup var env with
      | some s => .ok (.vStr s)
      | none =>
          match d1 with
          | .notset => .error (.configurationError
              ["Environment variable '" ++ var ++ "' not set."])
          | .val d => .ok d
    match valE with
    | .error e => .error e
    | .ok value =>
      let resolvedE : Except PyErr Value :=
        match value with
        | .vStr s =>
            if proxyMatch s then
              Env.call n env sch (pyStripBraces s) d1 (some c2) s1 force pre post
            else .ok value
        | _ => .ok value
      match resolvedE with
      | .error e => .error e
      | .ok value => postStages d1 c2 s1 force pre post value

/-- `shortcut(cast)` (envparse.py lines 37-40): a method that forwards to
`Env.__call__` with the cast preset. -/
def shortcut (c : Cast) : Nat → EnvMap → Schema → String → Default → Option Cast →
    Bool → Option (Value → Value) → Option (Value → Value) → Except PyErr Value :=
  fun fuel env sch var default subcast force pre post =>
    Env.call fuel env sch var default (some c) subcast force pre post

/-- `Env.bool = shortcut(bool)`. -/
def Env.bool := shortcut .cbool

/-- `Env.dict = shortcut(dict)`. -/
def Env.dict := shortcut .cdict

/-- `Env.float = shortcut(float)`. -/
def Env.float := shortcut .cfloat

/-- `Env.int = shortcut(int)`. -/
def Env.int := shortcut .cint

/-- `Env.list = shortcut(list)`. -/
def Env.list := shortcut .clist

/-- `Env.set = shortcut(set)`. -/
def Env.set := shortcut .cset

/-- `Env.str = shortcut(str)`. -/
def Env.str := shortcut .cstr

/-- `Env.tuple = shortcut(tuple)`. -/
def Env.tuple := shortcut .ctuple

/-- `Env.json = shortcut(pyjson.loads)`. -/
def Env.json := shortcut .cjson

/-- `Env.url = shortcut(urlparse.urlparse)`. -/
def Env.url := shortcut .curl

/-- Does the name match `re.match(r'[A-Za-z_][A-Za-z_0-9]*', name)`?  Since
`re.match` anchors only at the start and the starred part may be empty, this
is exactly: the name is nonempty and its first character is an ASCII letter
or underscore. -/
def nameOk (name : String) : Bool :=
  match name.data with
  | c :: _ => c.isAlpha || c = '_'
  | [] => false

/-- `value.replace(r'\n', '\n').replace(r'\t', '\t')`: decode the literal
two-character escapes in a parsed envfile value. -/
def unescapeValue (s : String) : String :=
  String.mk (replacePair '\\' 't' '\t' (replacePair '\\' 'n' '\n' s.data))

/-- One line of the envfile loop (envparse.py lines 219-231), parameterised
by the tokenizer (the code uses `shlex.shlex(line, posix=True)`): skip the
line unless it has at least three tokens, the second token is `=` and the
first token starts like an identifier; otherwise yield the name and the
concatenation of the remaining tokens with escapes decoded. -/
def parseLine (tokenize : String → List String) (line : String) :
    Option (String × String) :=
  match tokenize line with
  | name :: op :: rest =>
      if rest.isEmpty then none
      else if op ≠ "=" then none
      else if ¬ nameOk name then none
      else some (name, unescapeValue (String.join rest))
  | _ => none

/-- `dict.setdefault(name, value)` over an association list: insert only when
the key is not already present. -/
def setdefaultFold (m : List (String × String)) (kv : String × String) :
    List (String × String) :=
  if (List.lookup kv.1 m).isSome then m else m ++ [kv]

/-- The parsing phase of `Env.from_envfile` (envparse.py lines 218-234):
start from a fresh mapping, `setdefault` each parsed assignment line in
order, then `setdefault` each caller-supplied override. -/
def fromEnvfileParse (tokenize : String → List String) (content : String)
    (overrides : List (String × String)) : List (String × String) :=
  let fromFile := ((splitOnChar '\n' content).filterMap (parseLine tokenize)).foldl
    setdefaultFold []
  overrides.foldl setdefaultFold fromFile

/-- Simple tokenizer model: split the line on spaces and drop empty tokens.
It models `list(shlex.shlex(line, posix=True))` restricted to lines of
unquoted space-separated words, which covers every concrete envfile line
used in the theorems below. -/
def wsTokenize (line : String) : List String :=
  (splitOnChar ' ' line).filter (· ≠ "")

/-- The observable outcome of an `Env.from_envfile` call. -/
inductive EnvfileResult where
  | loaded (newEnv : List (String × String))
  | warned
  | raised (e : PyErr)
  deriving Repr

/-- An abstract file system: association of (directory components, file
name) to file content. -/
abbrev FileSys := List ((List String × String) × String)

/-- `Env.from_envfile` (envparse.py lines 186-236) on an abstract file
system, with the path split into its directory components and file name
(`os.path.split`; the parent of the root `[]` is `[]` itself, as
`os.path.abspath(os.path.join('/', os.pardir)) == '/'`).  When the file
exists, its parsed content (with overrides) becomes the new source.  When it
does not: the code computes the parent directory and, unless the path is
already at the root, calls `Env.read_envfile(path, **overrides)` — an
attribute that does not exist on `Env`, so an `AttributeError` is raised;
only at the root does it fall through to the non-fatal warning that leaves
the source unchanged. -/
def Env.from_envfile (tokenize : String → List String) (fs : FileSys)
    (dir : List String) (filename : String)
    (overrides : List (String × String)) : EnvfileResult :=
  match List.lookup (dir, filename) fs with
  | some content => .loaded (fromEnvfileParse tokenize content overrides)
  | none =>
      let pardir := dir.dropLast
      if dir ≠ pardir then
        .raised (.attributeError "type object 'Env' has no attribute 'read_envfile'")
      else
        .warned

/-- Is a supplied value a string that triggers proxy resolution? -/
def isProxyStr : Value → Bool
  | .vStr s => proxyMatch s
  | _ => false

/-- The float-cast string rewriting as the specification words it: strip all
characters except digits, commas and periods; split on any comma or period;
with exactly one fragment that fragment is the decimal value, and with more
than one fragment take all but the last fragment concatenated, a single
period, then the last fragment. -/
def specFloatRearrange (s : String) : String :=
  let cleaned := String.mk (s.data.filter (fun c => c.isDigit || c = ',' || c = '.'))
  let fragments := (charSplit (fun c => c = ',' || c = '.') cleaned.data).map String.mk
  if fragments.length = 1 then fragments.headD ""
  else String.intercalate "" fragments.dropLast ++ "." ++ fragments.getLastD ""

/-- The dict cast as the specification words it: split on commas into
`key=value` segments (blank input yields the empty mapping), split each
segment exactly once on `=` (so the value keeps any further `=` characters),
strip whitespace from key and value, and apply the subcast to the value. -/
def specDictOnce (s : String) (sub : Option Cast) : Except PyErr Value :=
  if s = "" then .ok (.vDict [])
  else
    ((splitOnChar ',' s).mapM (fun (seg : String) =>
      (match splitOnChar '=' seg with
      | k :: rest :: more =>
          (applySub sub (pyStripWs (String.intercalate "=" (rest :: more)))).map
            (fun vv => (pyStripWs k, vv))
      | _ => .error (.valueError ["dict segment without '='"]) :
        Except PyErr (String × Value)))).map Value.vDict

end Envparse

namespace Envparse

mutual

theorem Value.beq_refl : ∀ v : Value, Value.beq v v = true
  | .vNone => rfl
  | .vBool b => by simp [Value.beq]
  | .vInt n => by simp [Value.beq]
  | .vFloat q => by simp [Value.beq]
  | .vStr s => by simp [Value.beq]
  | .vList l => by simpa [Value.beq] using Value.beqList_refl l
  | .vTuple l => by simpa [Value.beq] using Value.beqList_refl l
  | .vSet l => by simpa [Value.beq] using Value.beqList_refl l
  | .vDict l => by simpa [Value.beq] using Value.beqPairs_refl l
  | .vUrl a b c d e f => by simp [Value.beq]

theorem Value.beqList_refl : ∀ l : List Value, Value.beqList l l = true
  | [] => rfl
  | x :: xs => by
      simp only [Value.beqList, Bool.and_eq_true]
      exact ⟨Value.beq_refl x, Value.beqList_refl xs⟩

theorem Value.beqPairs_refl : ∀ l : List (String × Value), Value.beqPairs l l = true
  | [] => rfl
  | (k, x) :: xs => by
      simp only [Value.beqPairs, Bool.and_eq_true, beq_self_eq_true, true_and]
      exact ⟨Value.beq_refl x, Value.beqPairs_refl xs⟩

end

/-- Claim C1: a missing envfile is claimed to trigger an upward directory
walk that retries until the root and never raises.  In the code the retry
calls `Env.read_envfile`, a method that does not exist, so at any non-root
path the call raises `AttributeError` instead of retrying; only a path
already at the filesystem root reaches the non-fatal warning that leaves the
source unchanged. -/
theorem c1_missing_envfile_raises_attribute_error :
    Env.from_envfile wsTokenize [] ["a", "b"] ".env" [] =
      .raised (.attributeError "type object 'Env' has no attribute 'read_envfile'") ∧
    Env.from_envfile wsTokenize [] [] ".env" [] = .warned := by
  exact ⟨rfl, rfl⟩

/-- Claim C2 (counterexample): a numeric parse failure of the float cast is
raised by the eager `float(float_str)` call inside the branch, before the
`try` block, so it escapes as a raw `ValueError` instead of being re-raised
as `ConfigurationError`. -/
theorem c2_counterexample_float_raw_valueerror :
    Env.cast (.vStr "abc") .cfloat none =
      .error (.valueError ["could not convert string to float: ''"]) := by
  rfl

/-- Claim C3 (counterexample): a dict segment whose value itself contains
`=` does not map the key to the remainder — the comprehension splits on
every `=` and the two-variable unpacking raises a raw `ValueError`. -/
theorem c3_counterexample_multi_eq_segment :
    Env.cast (.vStr "k=a=b") .cdict none =
      .error (.valueError ["too many values to unpack (expected 2)"]) := by
  rfl

/-- Claim C5: a proxy value is claimed to resolve to the fully-cast value of
the referenced variable.  The recursive call does produce that value
(`env.bool` of `B` is `True`), but the outer call then applies the cast a
second time to the already-cast result, and the bool branch calls `.lower()`
on a `bool`, raising `AttributeError` instead of returning `True`. -/
theorem c5_proxy_recast_crashes :
    Env.call 1 [("A", "\x7b\x7bB\x7d\x7d"), ("B", "true")] [] "B" .notset (some .cbool) none
      false none none = .ok (.vBool true) ∧
    Env.call 2 [("A", "\x7b\x7bB\x7d\x7d"), ("B", "true")] [] "A" .notset (some .cbool) none
      false none none = .error (.attributeError "object has no attribute 'lower'") := by
  exact ⟨rfl, rfl⟩

/-- Claim C6: each cast shortcut (`env.bool`, `env.dict`, ..., `env.url`)
agrees with the generic lookup `Env.__call__` with the corresponding cast
preset, on every variable name and every combination of the remaining
arguments, returning the same value and failing with the same error. -/
theorem c6_shortcuts_equal_generic_lookup :
    ∀ (fuel : Nat) (env : EnvMap) (sch : Schema) (var : String) (d : Default)
      (sub : Option Cast) (force : Bool) (pre post : Option (Value → Value)),
      Env.bool fuel env sch var d sub force pre post =
        Env.call fuel env sch var d (some .cbool) sub force pre post ∧
      Env.dict fuel env sch var d sub force pre post =
        Env.call fuel env sch var d (some .cdict) sub force pre post ∧
      Env.float fuel env sch var d sub force pre post =
        Env.call fuel env sch var d (some .cfloat) sub force pre post ∧
      Env.int fuel env sch var d sub force pre post =
        Env.call fuel env sch var d (some .cint) sub force pre post ∧
      Env.list fuel env sch var d sub force pre post =
        Env.call fuel env sch var d (some .clist) sub force pre post ∧
      Env.set fuel env sch var d sub force pre post =
        Env.call fuel env sch var d (some .cset) sub force pre post ∧
      Env.str fuel env sch var d sub force pre post =
        Env.call fuel env sch var d (some .cstr) sub force pre post ∧
      Env.tuple fuel env sch var d sub force pre post =
        Env.call fuel env sch var d (some .ctuple) sub force pre post ∧
      Env.json fuel env sch var d sub force pre post =
        Env.call fuel env sch var d (some .cjson) sub force pre post ∧
      Env.url fuel env sch var d sub force pre post =
        Env.call fuel env sch var d (some .curl) sub force pre post := by
  intro fuel env sch var d sub force pre post
  exact ⟨rfl, rfl, rfl, rfl, rfl, rfl, rfl, rfl, rfl, rfl⟩

/-- Claim C2 (amended): a `ValueError` raised by the final guarded
`cast(value)` call — for example an integer parse failure or a JSON parse
failure — is re-raised as `ConfigurationError` carrying the original error's
arguments; only failures of the eager branch code (float preparation, dict
comprehension) escape raw, as the counterexample shows. -/
theorem c2_final_cast_valueerror_wrapped
    (v : Value) (c : Cast) (sub : Option Cast) (i : Interm) (s : String)
    (args argsi argsj : List String)
    (hp : castPrep v c sub = .ok i)
    (hf : castFinal c sub i = .error (.valueError args))
    (hi : pyIntOfString s = .error (.valueError argsi))
    (hj : jsonLoads s = .error (.valueError argsj)) :
    Env.cast v c sub = .error (.configurationError args) ∧
    Env.cast (.vStr s) .cint none = .error (.configurationError argsi) ∧
    Env.cast (.vStr s) .cjson none = .error (.configurationError argsj) := by
  refine ⟨?_, ?_, ?_⟩
  · simp [Env.cast, hp, hf]
  · simp [Env.cast, castPrep, castFinal, pyIntValue, hi, Except.map]
  · simp [Env.cast, castPrep, castFinal, hj, Except.map]

/-- Witness for C2 (amended) at the concrete input `"12x"`: both the int
cast and the JSON cast fail on it, and both failures surface as
`ConfigurationError` with the original `ValueError` arguments. -/
theorem c2_final_cast_valueerror_wrapped_witness :
    Env.cast (.vStr "12x") .cint none =
      .error (.configurationError ["invalid literal for int() with base 10: '12x'"]) ∧
    Env.cast (.vStr "12x") .cjson none =
      .error (.configurationError ["Extra data"]) := by
  have h := c2_final_cast_valueerror_wrapped (.vStr "12x") .cint none
    (.val (.vStr "12x")) "12x"
    ["invalid literal for int() with base 10: '12x'"]
    ["invalid literal for int() with base 10: '12x'"] ["Extra data"]
    rfl rfl rfl rfl
  exact ⟨h.2.1, h.2.2⟩

theorem exceptMapM_congr {α β ε : Type} (l : List α) (f g : α → Except ε β)
    (h : ∀ a ∈ l, f a = g a) : l.mapM f = l.mapM g := by
  induction l with
  | nil => rfl
  | cons a t ih =>
      simp only [List.mapM_cons]
      rw [h a (by simp), ih (fun x hx => h x (by simp [hx]))]

/-- Claim C3 (amended): the dict cast maps a blank input to the empty
mapping, and on any input whose comma-segments each contain exactly one `=`
it agrees with the specification's split-once description (trimmed key to
(sub)cast trimmed value); but a segment with zero or several `=` characters
raises a `ValueError` (see the counterexample) instead of keeping the
remainder in the value. -/
theorem exceptMap_eq_ok {α β ε : Type} (f : α → β) (x : Except ε α) (v : β)
    (h : x.map f = .ok v) : ∃ w, x = .ok w ∧ v = f w := by
  cases x with
  | error e => simp [Except.map] at h
  | ok w =>
      simp only [Except.map, Except.ok.injEq] at h
      exact ⟨w, rfl, h.symm⟩

theorem c3_dict_cast_amended (s : String) (sub : Option Cast)
    (h : ∀ seg ∈ splitOnChar ',' s, (splitOnChar '=' seg).length = 2) :
    Env.cast (.vStr "") .cdict sub = .ok (.vDict []) ∧
    Env.cast (.vStr s) .cdict sub = specDictOnce s sub := by
  have hmap : pyDictComp s sub = specDictOnce s sub := by
    unfold pyDictComp specDictOnce
    by_cases hs : s = ""
    · simp [hs]
    · simp only [if_neg hs]
      congr 1
      apply exceptMapM_congr
      intro seg hseg
      have h2 := h seg hseg
      obtain ⟨k, v, hkv⟩ : ∃ k v, splitOnChar '=' seg = [k, v] := by
        cases hl : splitOnChar '=' seg with
        | nil =>
            rw [hl] at h2
            simp only [List.length_nil] at h2
            omega
        | cons k t =>
            cases t with
            | nil =>
                rw [hl] at h2
                simp only [List.length_cons, List.length_nil] at h2
                omega
            | cons v t2 =>
                cases t2 with
                | nil => exact ⟨k, v, rfl⟩
                | cons w t3 =>
                    rw [hl] at h2
                    simp only [List.length_cons] at h2
                    omega
      rw [hkv]
      rfl
  constructor
  · rfl
  · simp only [Env.cast, castPrep, hmap]
    cases hsd : specDictOnce s sub with
    | error e => simp [Except.map]
    | ok v =>
        have hshape : ∃ d, v = Value.vDict d := by
          rw [← hmap] at hsd
          unfold pyDictComp at hsd
          by_cases hs : s = ""
          · rw [if_pos hs] at hsd
            exact ⟨[], (Except.ok.inj hsd).symm⟩
          · rw [if_neg hs] at hsd
            obtain ⟨w, _, hv⟩ := exceptMap_eq_ok _ _ _ hsd
            exact ⟨w, hv⟩
        obtain ⟨d, rfl⟩ := hshape
        simp [Except.map, castFinal]

/-- Witness for C3 (amended) at the concrete input
`"key1=val1, key2=val2"`: every segment has exactly one `=`, and the cast
agrees with the split-once specification (and the blank input gives the
empty mapping). -/
theorem c3_dict_cast_amended_witness :
    (∀ seg ∈ splitOnChar ',' "key1=val1, key2=val2",
      (splitOnChar '=' seg).length = 2) ∧
    Env.cast (.vStr "") .cdict none = .ok (.vDict []) ∧
    Env.cast (.vStr "key1=val1, key2=val2") .cdict none =
      specDictOnce "key1=val1, key2=val2" none := by
  refine ⟨by decide, ?_, ?_⟩
  · exact (c3_dict_cast_amended "key1=val1, key2=val2" none (by decide)).1
  · exact (c3_dict_cast_amended "key1=val1, key2=val2" none (by decide)).2

/-- Claim C4: looking up a variable absent from the active source raises
`ConfigurationError` when no default was supplied, and returns the supplied
default untouched and uncast (including `None`) when one was — provided
`force` is false, no pre/postprocessor is given, and the default is not
itself a proxy-shaped string (which would trigger proxy resolution). -/
theorem c4_missing_variable (fuel : Nat) (env : EnvMap) (sch : Schema)
    (var : String) (c? s? : Option Cast) (force : Bool)
    (pre post : Option (Value → Value)) (d : Value)
    (h1 : List.lookup var env = none) (h2 : List.lookup var sch = none)
    (h3 : isProxyStr d = false) :
    Env.call (fuel + 1) env sch var .notset c? s? force pre post =
      .error (.configurationError
        ["Environment variable '" ++ var ++ "' not set."]) ∧
    Env.call (fuel + 1) env sch var (.val d) c? s? false none none = .ok d := by
  constructor
  · simp [Env.call, h1, h2, mergeSchemaParams]
  · cases d with
    | vStr s =>
        simp only [isProxyStr] at h3
        simp [Env.call, h1, h2, mergeSchemaParams, h3, postStages, neqDefault,
          Value.beq_refl]
    | vNone =>
        simp [Env.call, h1, h2, mergeSchemaParams, postStages, neqDefault,
          Value.beq_refl]
    | vBool b =>
        simp [Env.call, h1, h2, mergeSchemaParams, postStages, neqDefault,
          Value.beq_refl]
    | vInt n =>
        simp [Env.call, h1, h2, mergeSchemaParams, postStages, neqDefault,
          Value.beq_refl]
    | vFloat q =>
        simp [Env.call, h1, h2, mergeSchemaParams, postStages, neqDefault,
          Value.beq_refl]
    | vList l =>
        simp [Env.call, h1, h2, mergeSchemaParams, postStages, neqDefault,
          Value.beq_refl]
    | vTuple l =>
        simp [Env.call, h1, h2, mergeSchemaParams, postStages, neqDefault,
          Value.beq_refl]
    | vSet l =>
        simp [Env.call, h1, h2, mergeSchemaParams, postStages, neqDefault,
          Value.beq_refl]
    | vDict l =>
        simp [Env.call, h1, h2, mergeSchemaParams, postStages, neqDefault,
          Value.beq_refl]
    | vUrl a b c dd e f =>
        simp [Env.call, h1, h2, mergeSchemaParams, postStages, neqDefault,
          Value.beq_refl]

/-- Witness for C4 at the concrete missing name `"MISSING"` with the default
`None`: no default raises, default `None` is returned untouched. -/
theorem c4_missing_variable_witness :
    Env.call 1 [] [] "MISSING" .notset none none false none none =
      .error (.configurationError ["Environment variable 'MISSING' not set."]) ∧
    Env.call 1 [] [] "MISSING" (.val .vNone) none none false none none =
      .ok .vNone := by
  have h := c4_missing_variable 0 [] [] "MISSING" none none false none none
    .vNone rfl rfl rfl
  exact ⟨h.1, h.2⟩

theorem floatPrep_match_eq_if (parts : List String) :
    (match parts with
     | [p] => p
     | _ => String.intercalate "" parts.dropLast ++ "." ++ parts.getLastD "") =
    (if parts.length = 1 then parts.headD ""
     else String.intercalate "" parts.dropLast ++ "." ++ parts.getLastD "") := by
  match parts with
  | [] => rfl
  | [p] => rfl
  | p :: q :: r =>
      have hne : (p :: q :: r).length ≠ 1 := by simp
      rw [if_neg hne]

theorem floatPrep_eq_spec (s : String) : floatPrep s = specFloatRearrange s := by
  unfold floatPrep specFloatRearrange floatClean floatSplit
  exact floatPrep_match_eq_if _

/-- Claim C7: the float cast cleans the string to digits, commas and
periods, splits on any comma or period, and keeps the last fragment as the
fractional part: for every input the cast equals parsing the rearranged
string described by the specification, and in particular `"33.3"` casts to
`33.3` and `"1,234.56"` casts to `1234.56`. -/
theorem c7_float_cast_last_group_fractional :
    (∀ (s : String) (sub : Option Cast),
      Env.cast (.vStr s) .cfloat sub =
        match pyFloatOfString (specFloatRearrange s) with
        | .ok q => .ok (.vFloat q)
        | .error e => .error e) ∧
    Env.cast (.vStr "33.3") .cfloat none = .ok (.vFloat (333 / 10)) ∧
    Env.cast (.vStr "1,234.56") .cfloat none = .ok (.vFloat (30864 / 25)) := by
  have main : ∀ (s : String) (sub : Option Cast),
      Env.cast (.vStr s) .cfloat sub =
        match pyFloatOfString (specFloatRearrange s) with
        | .ok q => .ok (.vFloat q)
        | .error e => .error e := by
    intro s sub
    rw [← floatPrep_eq_spec]
    cases h : pyFloatOfString (floatPrep s) with
    | ok q => simp [Env.cast, castPrep, h, Except.map, castFinal, pyFloatValue]
    | error e => simp [Env.cast, castPrep, h, Except.map]
  refine ⟨main, ?_, ?_⟩
  · have h33 : Env.cast (.vStr "33.3") .cfloat none =
        .ok (.vFloat ((digitsVal ['3', '3'] : ℚ) +
          (digitsVal ['3'] : ℚ) / ((10 : ℚ) ^ (['3'] : List Char).length))) := rfl
    have e1 : digitsVal ['3', '3'] = 33 := rfl
    have e2 : digitsVal ['3'] = 3 := rfl
    have e3 : (['3'] : List Char).length = 1 := rfl
    rw [e1, e2, e3] at h33
    rw [h33]
    norm_num
  · have h12 : Env.cast (.vStr "1,234.56") .cfloat none =
        .ok (.vFloat ((digitsVal ['1', '2', '3', '4'] : ℚ) +
          (digitsVal ['5', '6'] : ℚ) / ((10 : ℚ) ^ (['5', '6'] : List Char).length))) := rfl
    have e1 : digitsVal ['1', '2', '3', '4'] = 1234 := rfl
    have e2 : digitsVal ['5', '6'] = 56 := rfl
    have e3 : (['5', '6'] : List Char).length = 2 := rfl
    rw [e1, e2, e3] at h12
    rw [h12]
    norm_num

/-- Claim C8: for a schema-declared name, schema `cast`/`subcast`/`default`
fill in only the parameters the caller did not supply (caller-supplied
values always win, both for record entries and bare-cast entries), and a
cast still unset after the merge defaults to the string passthrough — shown
on the merge step used by `Env.call` and on two concrete lookups where a
call-site `cast=str` overrides a schema-declared `int`. -/
theorem c8_schema_merge_precedence (sch1 sch2 : Schema) (var : String)
    (cs ss : Option Cast) (ds : Option Value) (c c0 s0 : Cast) (v : Value)
    (h1 : List.lookup var sch1 = some (.record cs ss ds))
    (h2 : List.lookup var sch2 = some (.bare c)) :
    mergeSchemaParams (List.lookup var sch1) (some c0) (some s0) (.val v) =
      (some c0, some s0, .val v) ∧
    mergeSchemaParams (List.lookup var sch1) none none .notset =
      (cs, ss, ds.elim Default.notset Default.val) ∧
    mergeSchemaParams (List.lookup var sch2) (some c0) (some s0) (.val v) =
      (some c0, some s0, .val v) ∧
    mergeSchemaParams (List.lookup var sch2) none none .notset =
      (some c, none, .notset) ∧
    (mergeSchemaParams (none : Option SchemaEntry) none none .notset).1.getD .cstr =
      .cstr ∧
    (mergeSchemaParams (some (.record none ss ds)) none none .notset).1.getD .cstr =
      .cstr ∧
    Env.call 1 [("X", "7")] [("X", .bare .cint)] "X" .notset (some .cstr) none
      false none none = .ok (.vStr "7") ∧
    Env.call 1 [("X", "7")] [("X", .bare .cint)] "X" .notset none none
      false none none = .ok (.vInt 7) := by
  refine ⟨by rw [h1]; rfl, by rw [h1]; cases ds <;> rfl, by rw [h2]; rfl,
    by rw [h2]; rfl, rfl, rfl, rfl, rfl⟩

/-- Witness for C8 at a concrete schema: a record entry for `"X"` declaring
`cast=int`, `subcast=float`, `default=None`, and a bare entry declaring
`int`. -/
theorem c8_schema_merge_precedence_witness :
    mergeSchemaParams
      (List.lookup "X" [("X", SchemaEntry.record (some .cint) (some .cfloat) (some .vNone))])
      (some .cstr) (some .cbool) (.val (.vStr "d")) =
      (some .cstr, some .cbool, .val (.vStr "d")) ∧
    mergeSchemaParams
      (List.lookup "X" [("X", SchemaEntry.record (some .cint) (some .cfloat) (some .vNone))])
      none none .notset =
      (some Cast.cint, some Cast.cfloat,
        (some Value.vNone).elim Default.notset Default.val) ∧
    Env.call 1 [("X", "7")] [("X", .bare .cint)] "X" .notset (some .cstr) none
      false none none = .ok (.vStr "7") ∧
    Env.call 1 [("X", "7")] [("X", .bare .cint)] "X" .notset none none
      false none none = .ok (.vInt 7) := by
  have h := c8_schema_merge_precedence
    [("X", SchemaEntry.record (some .cint) (some .cfloat) (some .vNone))]
    [("X", SchemaEntry.bare .cint)] "X" (some .cint) (some .cfloat) (some .vNone)
    .cint .cstr .cbool (.vStr "d") rfl rfl
  exact ⟨h.1, h.2.1, h.2.2.2.2.2.2.1, h.2.2.2.2.2.2.2⟩

theorem lookup_append (k : String) (m m' : List (String × String)) :
    List.lookup k (m ++ m') =
      match List.lookup k m with
      | some v => some v
      | none => List.lookup k m' := by
  induction m with
  | nil => simp only [List.nil_append, List.lookup_nil]
  | cons a t ih =>
      obtain ⟨a1, a2⟩ := a
      by_cases hk : k = a1
      · subst hk
        simp [List.lookup]
      · simp only [List.cons_append, List.lookup,
          beq_eq_false_iff_ne.mpr hk]
        exact ih

theorem lookup_foldl_setdefault (l m : List (String × String)) (k : String) :
    List.lookup k (l.foldl setdefaultFold m) =
      match List.lookup k m with
      | some v => some v
      | none => List.lookup k l := by
  induction l generalizing m with
  | nil =>
      simp only [List.foldl_nil]
      cases List.lookup k m <;> rfl
  | cons a t ih =>
      obtain ⟨a1, a2⟩ := a
      simp only [List.foldl_cons]
      rw [ih]
      unfold setdefaultFold
      by_cases hm : (List.lookup a1 m).isSome
      · rw [if_pos hm]
        by_cases hk : k = a1
        · subst hk
          obtain ⟨v, hv⟩ := Option.isSome_iff_exists.mp hm
          rw [hv]
        · simp only [List.lookup, beq_eq_false_iff_ne.mpr hk]
      · rw [if_neg hm]
        rw [lookup_append]
        by_cases hk : k = a1
        · subst hk
          rw [Option.not_isSome_iff_eq_none.mp hm]
          simp [List.lookup]
        · simp only [List.lookup, beq_eq_false_iff_ne.mpr hk, List.lookup_nil]
          cases List.lookup k m <;> rfl

/-- Claim C9: the envfile loop adds each parsed assignment with
`setdefault`, so a looked-up name gets the value of the first assignment
line naming it, later duplicate lines are ignored, and caller-supplied
overrides (applied with `setdefault` after the file) never replace a value
the file already set — in general and on a concrete duplicated file. -/
theorem c9_envfile_first_assignment_wins :
    (∀ (tokenize : String → List String) (content : String)
       (overrides : List (String × String)) (name : String),
      List.lookup name (fromEnvfileParse tokenize content overrides) =
        List.lookup name
          (((splitOnChar '\n' content).filterMap (parseLine tokenize)) ++ overrides)) ∧
    fromEnvfileParse wsTokenize "FOO = 1\nFOO = 2\nBAR = b"
      [("FOO", "9"), ("BAZ", "z")] =
      [("FOO", "1"), ("BAR", "b"), ("BAZ", "z")] := by
  constructor
  · intro tok content ov name
    unfold fromEnvfileParse
    rw [lookup_foldl_setdefault, lookup_foldl_setdefault, lookup_append]
    simp only [List.lookup_nil]
  · rfl

/-- Claim C10: proxy detection fires whenever some prefix of the value
matches `{{.+}}`, and the recursive lookup receives the value with every
leading and trailing curly brace stripped: in general the lookup unfolds to
the recursive call on the stripped name followed by the post stages, and in
particular `"{{{FOO}}}"` resolves the inner name `"FOO"` while
`"{{FOO}}tail"` resolves the inner name `"FOO}}tail"`. -/
theorem c10_proxy_detection_and_strip (n : Nat) (env : EnvMap) (sch : Schema)
    (var s : String) (d : Default) (c? s? : Option Cast) (force : Bool)
    (pre post : Option (Value → Value))
    (h1 : List.lookup var env = some s) (h2 : proxyMatch s = true)
    (h3 : List.lookup var sch = none) :
    Env.call (n + 1) env sch var d c? s? force pre post =
      (match Env.call n env sch (pyStripBraces s) d (some (c?.getD .cstr)) s?
          force pre post with
       | .error e => .error e
       | .ok v => postStages d (c?.getD .cstr) s? force pre post v) ∧
    proxyMatch "\x7b\x7b\x7bFOO\x7d\x7d\x7d" = true ∧
    pyStripBraces "\x7b\x7b\x7bFOO\x7d\x7d\x7d" = "FOO" ∧
    proxyMatch "\x7b\x7bFOO\x7d\x7dtail" = true ∧
    pyStripBraces "\x7b\x7bFOO\x7d\x7dtail" = "FOO\x7d\x7dtail" ∧
    Env.call 2 [("A", "\x7b\x7b\x7bFOO\x7d\x7d\x7d"), ("FOO", "v")] [] "A" .notset none none
      false none none = .ok (.vStr "v") ∧
    Env.call 2 [("B", "\x7b\x7bFOO\x7d\x7dtail"), ("FOO\x7d\x7dtail", "w")] [] "B" .notset none none
      false none none = .ok (.vStr "w") := by
  refine ⟨?_, rfl, rfl, rfl, rfl, rfl, rfl⟩
  simp only [Env.call, h1, h2, h3, mergeSchemaParams, if_true]

/-- Witness for C10 at the concrete proxy value `"{{Q}}"`. -/
theorem c10_proxy_detection_and_strip_witness :
    Env.call 2 [("P", "\x7b\x7bQ\x7d\x7d"), ("Q", "z")] [] "P" .notset none none false
      none none =
      (match Env.call 1 [("P", "\x7b\x7bQ\x7d\x7d"), ("Q", "z")] [] (pyStripBraces "\x7b\x7bQ\x7d\x7d")
          .notset (some ((none : Option Cast).getD .cstr)) none false none none with
       | .error e => .error e
       | .ok v =>
           postStages .notset ((none : Option Cast).getD .cstr) none false
             none none v) := by
  exact (c10_proxy_detection_and_strip 1 [("P", "\x7b\x7bQ\x7d\x7d"), ("Q", "z")] [] "P"
    "\x7b\x7bQ\x7d\x7d" .notset none none false none none rfl rfl rfl).1

end Envparse
